import Mathlib

/-!
Verification of the plate-candidate validation logic and capture control flow
of the number_plate_OCR repository (source: src/src/app/page.tsx).

The validator is embedded shallowly: JS strings become Lean `String`
(lists of characters; all characters the pipeline keeps are ASCII, where the
two agree), the OCR confidence (a JS number in [0,100]) becomes `Rat`, and
the React state writes become explicit state records.
-/

namespace PlateOCR

/-- Characters kept by the replacement `text.replace(/[^A-Z0-9\-]/gi, '')`:
ASCII letters of either case (the regex has the `i` flag), ASCII digits,
and the hyphen (code point 45). -/
def isPlateChar (c : Char) : Bool :=
  (65 ≤ c.toNat && c.toNat ≤ 90) ||    -- A-Z
  (97 ≤ c.toNat && c.toNat ≤ 122) ||   -- a-z
  (48 ≤ c.toNat && c.toNat ≤ 57) ||    -- 0-9
  c.toNat == 45                        -- hyphen

/-- The character class `[A-Z]` under the `i` flag, as used by the
`hasLetter` test and the `letterCount` match in `isValidPlateNumber`. -/
def isAsciiLetter (c : Char) : Bool :=
  (65 ≤ c.toNat && c.toNat ≤ 90) || (97 ≤ c.toNat && c.toNat ≤ 122)

/-- The character class `[0-9]`, as used by the `hasNumber` test and the
`numberCount` match in `isValidPlateNumber`. -/
def isAsciiDigit (c : Char) : Bool :=
  48 ≤ c.toNat && c.toNat ≤ 57

/-- The cleaning step of `recognizeText`:
`data.text.replace(/[^A-Z0-9\-]/gi, '').toUpperCase()`.
`Char.toUpper` is the ASCII-only uppercase map, which coincides with the
JS `toUpperCase` on every character `isPlateChar` keeps. -/
def cleanText (s : String) : String :=
  String.mk ((s.data.filter isPlateChar).map Char.toUpper)

/-- The cleaning step of `isValidPlateNumber`:
`text.replace(/[^A-Z0-9\-]/gi, '')` (no uppercasing there). -/
def stripNonPlate (s : String) : String :=
  String.mk (s.data.filter isPlateChar)

/-- `(cleaned.match(/[A-Z]/gi) || []).length`. -/
def letterCount (s : String) : Nat :=
  (s.data.filter isAsciiLetter).length

/-- `(cleaned.match(/[0-9]/g) || []).length`. -/
def digitCount (s : String) : Nat :=
  (s.data.filter isAsciiDigit).length

/-- The validation heuristic `isValidPlateNumber` from page.tsx, line for line:
re-strip the input, check length 3..10, check at least one letter and one
digit, then the letter/digit combination rule. -/
def isValidPlateNumber (text : String) : Bool :=
  let cleaned := stripNonPlate text
  if cleaned.length < 3 ∨ cleaned.length > 10 then
    false
  else
    let hasLetter := cleaned.data.any isAsciiLetter
    let hasNumber := cleaned.data.any isAsciiDigit
    if !hasLetter || !hasNumber then
      false
    else
      decide ((2 ≤ letterCount cleaned ∧ 2 ≤ digitCount cleaned) ∨
              (3 ≤ letterCount cleaned ∧ 1 ≤ digitCount cleaned) ∨
              (1 ≤ letterCount cleaned ∧ 3 ≤ digitCount cleaned))

/-- The Validation Outcome of the spec: `Accepted(normalizedText)` or one of
the three rejection reasons. -/
inductive Outcome where
  | accepted (plate : String)
  | lowConfidence
  | ambiguousShortText
  | notPlateShaped
deriving DecidableEq

/-- The pure gate sequence of `recognizeText` applied to the OCR result
`{ text, confidence }`: clean, confidence gate 1 (`< 15`), confidence gate 2
(`< 30` and cleaned length `< 4`), shape gate, otherwise accept the cleaned
string. -/
def validate (text : String) (confidence : Rat) : Outcome :=
  let cleaned := cleanText text
  if confidence < 15 then
    Outcome.lowConfidence
  else if confidence < 30 ∧ cleaned.length < 4 then
    Outcome.ambiguousShortText
  else if !isValidPlateNumber cleaned then
    Outcome.notPlateShaped
  else
    Outcome.accepted cleaned

/-- Modelled from the spec: the shape-gate condition in the spec's own words
(claim C1) - length between 3 and 10, at least one letter and one digit, and
the letter/digit combination rule. Compared against `isValidPlateNumber`. -/
def plateShapedSpec (s : String) : Prop :=
  (3 ≤ s.length ∧ s.length ≤ 10) ∧
  ((∃ c ∈ s.data, isAsciiLetter c = true) ∧ (∃ c ∈ s.data, isAsciiDigit c = true)) ∧
  ((2 ≤ letterCount s ∧ 2 ≤ digitCount s) ∨
   (3 ≤ letterCount s ∧ 1 ≤ digitCount s) ∨
   (1 ≤ letterCount s ∧ 3 ≤ digitCount s))

/-- The live video element, as far as `captureImage` reads it. -/
structure VideoSource where
  videoWidth : Nat
  videoHeight : Nat
deriving DecidableEq

/-- The offscreen canvas raster buffer, as far as `captureImage` writes it. -/
structure CanvasBuffer where
  width : Nat
  height : Nat
deriving DecidableEq

/-- Observable effect of one `captureImage` call: the canvas handle after the
call, and whether `recognizeText` was invoked. -/
structure CaptureResult where
  canvas : Option CanvasBuffer
  recognitionInvoked : Bool
deriving DecidableEq

/-- The `captureImage` handler: if both the canvas handle and the video handle
are non-null, resize the canvas to the video dimensions and, when a 2d context
is available, draw the frame and invoke recognition; otherwise do nothing. -/
def captureImage (canvasRef : Option CanvasBuffer) (videoRef : Option VideoSource)
    (hasContext : Bool) : CaptureResult :=
  match canvasRef, videoRef with
  | some canvas, some video =>
      let canvas := { canvas with width := video.videoWidth, height := video.videoHeight }
      { canvas := some canvas, recognitionInvoked := hasContext }
  | _, _ => { canvas := canvasRef, recognitionInvoked := false }

/-- The reactive UI state touched by one recognition run. -/
structure UIState where
  plateText : String
  error : String
  loading : Bool
deriving DecidableEq

/-- What the external OCR engine call produced: an exception, or a
recognition result `{ text, confidence }`. -/
inductive OcrOutcome where
  | engineFailure
  | engineResult (text : String) (confidence : Rat)

def lowConfidenceMsg : String :=
  "Low confidence in text recognition. Please ensure the number plate is clear and well-lit."

def ambiguousMsg : String :=
  "Unclear image. Please try again with better lighting or move closer to the plate."

def notPlateMsg : String :=
  "No valid number plate detected. Please ensure you are pointing the camera at a clear number plate."

def engineFailureMsg : String :=
  "Failed to recognize text. Please try again."

/-- One completed run of `recognizeText` over the state it touches: it first
sets loading and clears the error and the plate text; on an engine exception
it sets the generic error; otherwise it runs the gates of `validate`, each
rejection setting its message and acceptance setting the plate text; the
`finally` clause resets loading. -/
def recognizeText (s0 : UIState) (ocr : OcrOutcome) : UIState :=
  let s1 : UIState := { s0 with loading := true, error := "", plateText := "" }
  let s2 : UIState :=
    match ocr with
    | OcrOutcome.engineFailure => { s1 with error := engineFailureMsg }
    | OcrOutcome.engineResult text confidence =>
        match validate text confidence with
        | Outcome.lowConfidence => { s1 with error := lowConfidenceMsg }
        | Outcome.ambiguousShortText => { s1 with error := ambiguousMsg }
        | Outcome.notPlateShaped => { s1 with error := notPlateMsg }
        | Outcome.accepted plate => { s1 with plateText := plate }
  { s2 with loading := false }

end PlateOCR
namespace PlateOCR

theorem toNat_ofNat_of_lt {m : Nat} (h : m < 55296) : (Char.ofNat m).toNat = m := by
  rw [Char.ofNat, dif_pos (Or.inl h)]
  rfl

theorem toUpper_toNat (c : Char) :
    (Char.toUpper c).toNat =
      if Char.toNat c ≥ 97 ∧ Char.toNat c ≤ 122 then Char.toNat c - 32 else Char.toNat c := by
  simp only [Char.toUpper]
  by_cases h : Char.toNat c ≥ 97 ∧ Char.toNat c ≤ 122
  · rw [if_pos h, if_pos h]
    exact toNat_ofNat_of_lt (by omega)
  · rw [if_neg h, if_neg h]

theorem isPlateChar_iff {c : Char} :
    isPlateChar c = true ↔
      (65 ≤ c.toNat ∧ c.toNat ≤ 90) ∨ (97 ≤ c.toNat ∧ c.toNat ≤ 122) ∨
      (48 ≤ c.toNat ∧ c.toNat ≤ 57) ∨ c.toNat = 45 := by
  simp [isPlateChar, Bool.or_eq_true, Bool.and_eq_true, decide_eq_true_eq, beq_iff_eq, or_assoc]

theorem isPlateChar_toUpper {c : Char} (h : isPlateChar c = true) :
    isPlateChar (Char.toUpper c) = true := by
  have ht := toUpper_toNat c
  rw [isPlateChar_iff] at h ⊢
  split at ht <;> omega

theorem toUpper_eq_self {c : Char} (h : ¬ (Char.toNat c ≥ 97 ∧ Char.toNat c ≤ 122)) :
    Char.toUpper c = c := by
  simp only [Char.toUpper]
  rw [if_neg h]

theorem toUpper_toUpper {c : Char} (h : isPlateChar c = true) :
    Char.toUpper (Char.toUpper c) = Char.toUpper c := by
  apply toUpper_eq_self
  have ht := toUpper_toNat c
  rw [isPlateChar_iff] at h
  split at ht <;> omega

theorem data_cleanText (s : String) :
    (cleanText s).data = (s.data.filter isPlateChar).map Char.toUpper := rfl

theorem mem_cleanText {s : String} {c : Char} (hc : c ∈ (cleanText s).data) :
    isPlateChar c = true ∧ Char.toUpper c = c := by
  rw [data_cleanText] at hc
  rcases List.mem_map.mp hc with ⟨a, ha, rfl⟩
  have hpa := (List.mem_filter.mp ha).2
  exact ⟨isPlateChar_toUpper hpa, toUpper_toUpper hpa⟩

theorem mem_cleanText_toNat {s : String} {c : Char} (hc : c ∈ (cleanText s).data) :
    (65 ≤ c.toNat ∧ c.toNat ≤ 90) ∨ (48 ≤ c.toNat ∧ c.toNat ≤ 57) ∨ c.toNat = 45 := by
  rw [data_cleanText] at hc
  rcases List.mem_map.mp hc with ⟨a, ha, rfl⟩
  have hpa := (List.mem_filter.mp ha).2
  rw [isPlateChar_iff] at hpa
  have ht := toUpper_toNat a
  split at ht <;> omega

theorem stripNonPlate_cleanText (s : String) : stripNonPlate (cleanText s) = cleanText s := by
  have hdata : ∀ c ∈ (cleanText s).data, isPlateChar c = true :=
    fun c hc => (mem_cleanText hc).1
  show String.mk ((cleanText s).data.filter isPlateChar) = cleanText s
  rw [List.filter_eq_self.mpr hdata]

theorem char_eq_of_toNat_eq {a b : Char} (h : Char.toNat a = Char.toNat b) : a = b := by
  rw [← Char.ofNat_toNat a, ← Char.ofNat_toNat b, h]

theorem length_eq_data_length (s : String) : s.length = s.data.length := rfl

theorem isValid_iff_plateShapedSpec (s : String) (hs : stripNonPlate s = s) :
    isValidPlateNumber s = true ↔ plateShapedSpec s := by
  simp only [isValidPlateNumber, hs]
  by_cases hlen : s.length < 3 ∨ s.length > 10
  · rw [if_pos hlen]
    simp only [Bool.false_eq_true, false_iff]
    intro hspec
    rcases hspec.1 with ⟨hl, hu⟩
    omega
  · rw [if_neg hlen]
    by_cases hln : (!s.data.any isAsciiLetter || !s.data.any isAsciiDigit) = true
    · rw [if_pos hln]
      simp only [Bool.false_eq_true, false_iff]
      intro hspec
      rcases hspec.2.1 with ⟨⟨cl, hcl, hcll⟩, ⟨cd, hcd, hcdd⟩⟩
      simp only [Bool.or_eq_true, Bool.not_eq_true', List.any_eq_false] at hln
      rcases hln with hno | hno
      · exact absurd hcll (by simpa using hno cl hcl)
      · exact absurd hcdd (by simpa using hno cd hcd)
    · rw [if_neg hln]
      simp only [Bool.or_eq_true, Bool.not_eq_true', not_or, Bool.not_eq_false,
        List.any_eq_true] at hln
      simp only [decide_eq_true_eq]
      constructor
      · intro hcomb
        exact ⟨⟨by omega, by omega⟩, ⟨hln.1, hln.2⟩, hcomb⟩
      · intro hspec
        exact hspec.2.2

theorem validate_accepted_eq {text : String} {confidence : Rat} {plate : String}
    (h : validate text confidence = Outcome.accepted plate) :
    plate = cleanText text ∧ isValidPlateNumber (cleanText text) = true := by
  simp only [validate] at h
  split at h
  · exact absurd h (by simp)
  · split at h
    · exact absurd h (by simp)
    · split at h
      · exact absurd h (by simp)
      · next hcond =>
        simp only [Bool.not_eq_true', Bool.not_eq_false] at hcond
        rw [Outcome.accepted.injEq] at h
        exact ⟨h.symm, hcond⟩

theorem validate_accepted_ne_empty {text : String} {confidence : Rat} {plate : String}
    (h : validate text confidence = Outcome.accepted plate) : plate ≠ "" := by
  obtain ⟨rfl, hvalid⟩ := validate_accepted_eq h
  have hspec := (isValid_iff_plateShapedSpec _ (stripNonPlate_cleanText text)).mp hvalid
  intro he
  rw [he] at hspec
  exact absurd hspec.1.1 (by decide)

end PlateOCR
namespace PlateOCR

/-- C1: for every input text and every confidence passing both confidence
gates, the outcome is Accepted of the cleaned string exactly when the cleaned
string satisfies the shape conditions (length 3..10, at least one letter and
one digit, and the letter/digit combination rule); otherwise NotPlateShaped. -/
theorem shape_gate_decides (text : String) (confidence : Rat)
    (h1 : 15 ≤ confidence)
    (h2 : ¬ (confidence < 30 ∧ (cleanText text).length < 4)) :
    (validate text confidence = Outcome.accepted (cleanText text) ↔
      plateShapedSpec (cleanText text)) ∧
    (¬ plateShapedSpec (cleanText text) → validate text confidence = Outcome.notPlateShaped) := by
  have hiff := isValid_iff_plateShapedSpec (cleanText text) (stripNonPlate_cleanText text)
  simp only [validate]
  rw [if_neg (not_lt.mpr h1), if_neg h2]
  by_cases hv : isValidPlateNumber (cleanText text) = true
  · rw [if_neg (by simp [hv])]
    refine ⟨⟨fun _ => hiff.mp hv, fun _ => rfl⟩, fun hns => absurd (hiff.mp hv) hns⟩
  · rw [if_pos (by simp [Bool.not_eq_true'] at hv ⊢; exact hv)]
    constructor
    · constructor
      · intro h
        exact absurd h (by simp)
      · intro hspec
        exact absurd (hiff.mpr hspec) hv
    · intro _
      rfl

theorem shape_gate_decides_witness :
    (validate "AB1234" 80 = Outcome.accepted (cleanText "AB1234") ↔
      plateShapedSpec (cleanText "AB1234")) ∧
    (¬ plateShapedSpec (cleanText "AB1234") →
      validate "AB1234" 80 = Outcome.notPlateShaped) :=
  shape_gate_decides "AB1234" 80 (by decide) (by decide)

/-- C2: for every text and every confidence strictly below 15, the outcome is
LowConfidence regardless of the text. -/
theorem low_confidence_gate (text : String) (confidence : Rat) (h : confidence < 15) :
    validate text confidence = Outcome.lowConfidence := by
  simp only [validate]
  rw [if_pos h]

theorem low_confidence_gate_witness : validate "XYZ" 10 = Outcome.lowConfidence :=
  low_confidence_gate "XYZ" 10 (by decide)

/-- C3: for every text and confidence in [15, 30), if the cleaned string is
shorter than 4, the outcome is AmbiguousShortText. -/
theorem ambiguous_short_text_gate (text : String) (confidence : Rat)
    (h15 : 15 ≤ confidence) (h30 : confidence < 30)
    (hlen : (cleanText text).length < 4) :
    validate text confidence = Outcome.ambiguousShortText := by
  simp only [validate]
  rw [if_neg (not_lt.mpr h15), if_pos ⟨h30, hlen⟩]

theorem ambiguous_short_text_gate_witness : validate "Z9" 25 = Outcome.ambiguousShortText :=
  ambiguous_short_text_gate "Z9" 25 (by decide) (by decide) (by decide)

/-- C4 counterexample: on text "AB-1234 " with confidence 80 the validator
does NOT return Accepted("AB1234"): the hyphen survives cleaning. -/
theorem hyphen_example_not_stripped :
    validate "AB-1234 " 80 ≠ Outcome.accepted "AB1234" := by
  decide

/-- C4 amended: on text "AB-1234 " with confidence 80 the validator returns
Accepted("AB-1234"), the cleaned string with the hyphen retained. -/
theorem hyphen_example_accepted :
    validate "AB-1234 " 80 = Outcome.accepted "AB-1234" := by
  decide

/-- C5: whenever a run accepts x, the string x consists only of uppercase
ASCII letters (codes 65..90), digits (48..57) and hyphens, its length is
between 3 and 10, and it contains at least one letter and one digit. -/
theorem accepted_round_trip (text : String) (confidence : Rat) (x : String)
    (h : validate text confidence = Outcome.accepted x) :
    (∀ c ∈ x.data, (65 ≤ c.toNat ∧ c.toNat ≤ 90) ∨ (48 ≤ c.toNat ∧ c.toNat ≤ 57) ∨ c = '-') ∧
    (3 ≤ x.length ∧ x.length ≤ 10) ∧
    (∃ c ∈ x.data, isAsciiLetter c = true) ∧ (∃ c ∈ x.data, isAsciiDigit c = true) := by
  obtain ⟨rfl, hvalid⟩ := validate_accepted_eq h
  have hspec := (isValid_iff_plateShapedSpec _ (stripNonPlate_cleanText text)).mp hvalid
  refine ⟨?_, hspec.1, hspec.2.1.1, hspec.2.1.2⟩
  intro c hc
  rcases mem_cleanText_toNat hc with h1 | h1 | h1
  · exact Or.inl h1
  · exact Or.inr (Or.inl h1)
  · exact Or.inr (Or.inr (char_eq_of_toNat_eq (by rw [h1]; rfl)))

theorem accepted_round_trip_witness :
    (∀ c ∈ String.data "AB-1234", (65 ≤ c.toNat ∧ c.toNat ≤ 90) ∨
        (48 ≤ c.toNat ∧ c.toNat ≤ 57) ∨ c = '-') ∧
    (3 ≤ String.length "AB-1234" ∧ String.length "AB-1234" ≤ 10) ∧
    (∃ c ∈ String.data "AB-1234", isAsciiLetter c = true) ∧
    (∃ c ∈ String.data "AB-1234", isAsciiDigit c = true) :=
  accepted_round_trip "AB-1234 " 80 "AB-1234" (by decide)

/-- C6: normalization is idempotent: cleaning an already-cleaned string
returns it unchanged. -/
theorem cleanText_idem (s : String) : cleanText (cleanText s) = cleanText s := by
  have h1 : (cleanText s).data.filter isPlateChar = (cleanText s).data :=
    List.filter_eq_self.mpr fun c hc => (mem_cleanText hc).1
  show String.mk (((cleanText s).data.filter isPlateChar).map Char.toUpper) = cleanText s
  rw [h1]
  have h2 : ∀ l : List Char, (∀ c ∈ l, Char.toUpper c = c) → l.map Char.toUpper = l := by
    intro l
    induction l with
    | nil => intro _; rfl
    | cons a t ih =>
        intro hall
        rw [List.map_cons, hall a (by simp), ih fun c hc => hall c (List.mem_cons_of_mem a hc)]
  rw [h2 _ fun c hc => (mem_cleanText hc).2]

/-- C7: the validator is total - for every text and confidence in [0,100] it
returns one of the four outcomes. -/
theorem validate_total (text : String) (confidence : Rat)
    (h0 : 0 ≤ confidence) (h100 : confidence ≤ 100) :
    (∃ x, validate text confidence = Outcome.accepted x) ∨
    validate text confidence = Outcome.lowConfidence ∨
    validate text confidence = Outcome.ambiguousShortText ∨
    validate text confidence = Outcome.notPlateShaped := by
  simp only [validate]
  split
  · right; left; rfl
  · split
    · right; right; left; rfl
    · split
      · right; right; right; rfl
      · left; exact ⟨_, rfl⟩

theorem validate_total_witness :
    (∃ x, validate "KA01AB1234" 50 = Outcome.accepted x) ∨
    validate "KA01AB1234" 50 = Outcome.lowConfidence ∨
    validate "KA01AB1234" 50 = Outcome.ambiguousShortText ∨
    validate "KA01AB1234" 50 = Outcome.notPlateShaped :=
  validate_total "KA01AB1234" 50 (by decide) (by decide)

/-- C8: when the canvas handle or the video handle is null, captureImage
leaves the canvas unchanged and does not invoke recognition. -/
theorem captureImage_noop (canvasRef : Option CanvasBuffer) (videoRef : Option VideoSource)
    (hasContext : Bool) (h : canvasRef = none ∨ videoRef = none) :
    captureImage canvasRef videoRef hasContext =
      { canvas := canvasRef, recognitionInvoked := false } := by
  rcases canvasRef with _ | canvas <;> rcases videoRef with _ | video
  · rfl
  · rfl
  · rfl
  · rcases h with h | h <;> exact absurd h (by simp)

theorem captureImage_noop_witness :
    captureImage none none true = { canvas := none, recognitionInvoked := false } :=
  captureImage_noop none none true (Or.inl rfl)

/-- C9: a trailing hyphen adds one to the cleaned length but changes neither
the letter count nor the digit count, and an accepted cleaned string keeps
its hyphen: for every confidence at least 30, "AB-12" is accepted as "AB-12". -/
theorem hyphen_counts (s : String) (confidence : Rat) (hc : 30 ≤ confidence) :
    (cleanText (s ++ "-")).length = (cleanText s).length + 1 ∧
    letterCount (cleanText (s ++ "-")) = letterCount (cleanText s) ∧
    digitCount (cleanText (s ++ "-")) = digitCount (cleanText s) ∧
    validate "AB-12" confidence = Outcome.accepted "AB-12" := by
  have hdata : (cleanText (s ++ "-")).data = (cleanText s).data ++ ['-'] := by
    show ((s.data ++ ['-']).filter isPlateChar).map Char.toUpper
        = (s.data.filter isPlateChar).map Char.toUpper ++ ['-']
    rw [List.filter_append, List.map_append]
    rfl
  refine ⟨?_, ?_, ?_, ?_⟩
  · show (cleanText (s ++ "-")).data.length = (cleanText s).data.length + 1
    rw [hdata, List.length_append]
    rfl
  · unfold letterCount
    rw [hdata, List.filter_append,
      (by decide : List.filter isAsciiLetter ['-'] = []), List.append_nil]
  · unfold digitCount
    rw [hdata, List.filter_append,
      (by decide : List.filter isAsciiDigit ['-'] = []), List.append_nil]
  · have h15 : ¬ confidence < 15 := not_lt.mpr (le_trans (by norm_num) hc)
    have h30 : ¬ (confidence < 30 ∧ (cleanText "AB-12").length < 4) :=
      fun hcon => absurd hcon.1 (not_lt.mpr hc)
    simp only [validate]
    rw [if_neg h15, if_neg h30,
      if_neg (by decide : ¬ ((!isValidPlateNumber (cleanText "AB-12")) = true))]
    rfl

theorem hyphen_counts_witness :
    (cleanText ("" ++ "-")).length = (cleanText "").length + 1 ∧
    letterCount (cleanText ("" ++ "-")) = letterCount (cleanText "") ∧
    digitCount (cleanText ("" ++ "-")) = digitCount (cleanText "") ∧
    validate "AB-12" 30 = Outcome.accepted "AB-12" :=
  hyphen_counts "" 30 (by decide)

/-- C10: after a completed recognition run exactly one of the plate-text
field and the error message is non-empty, and the plate text is non-empty
only when the validator accepted it. -/
theorem run_invariant (s0 : UIState) (ocr : OcrOutcome) :
    ((recognizeText s0 ocr).plateText = "" ∧ (recognizeText s0 ocr).error ≠ "") ∨
    ((recognizeText s0 ocr).plateText ≠ "" ∧ (recognizeText s0 ocr).error = "" ∧
      ∃ text confidence, ocr = OcrOutcome.engineResult text confidence ∧
        validate text confidence = Outcome.accepted ((recognizeText s0 ocr).plateText)) := by
  rcases ocr with _ | ⟨text, confidence⟩
  · left
    refine ⟨rfl, ?_⟩
    have he : (recognizeText s0 OcrOutcome.engineFailure).error = engineFailureMsg := rfl
    rw [he]
    decide
  · rcases hv : validate text confidence with plate | _ | _ | _
    · right
      have hrun : recognizeText s0 (OcrOutcome.engineResult text confidence) =
          { plateText := plate, error := "", loading := false } := by
        simp [recognizeText, hv]
      rw [hrun]
      exact ⟨validate_accepted_ne_empty hv, rfl, text, confidence, rfl, hv⟩
    · left
      have hrun : recognizeText s0 (OcrOutcome.engineResult text confidence) =
          { plateText := "", error := lowConfidenceMsg, loading := false } := by
        simp [recognizeText, hv]
      rw [hrun]
      exact ⟨rfl, by decide⟩
    · left
      have hrun : recognizeText s0 (OcrOutcome.engineResult text confidence) =
          { plateText := "", error := ambiguousMsg, loading := false } := by
        simp [recognizeText, hv]
      rw [hrun]
      exact ⟨rfl, by decide⟩
    · left
      have hrun : recognizeText s0 (OcrOutcome.engineResult text confidence) =
          { plateText := "", error := notPlateMsg, loading := false } := by
        simp [recognizeText, hv]
      rw [hrun]
      exact ⟨rfl, by decide⟩

end PlateOCR
